import Mathlib

/-!
# Verification of the MCQ Creator response validator and app flow

Shallow embedding of `src/mcq_generator_app.py`. The pure logic embedded here:

* the response clean-up and validation done inside
  `generate_questions_with_gemini` (lines 60-107): stripping fenced-code
  markers, parsing the text as JSON (`json.loads`), per-element validation
  of question objects, defaulting of the `explanation` key, and the three
  outcome paths (success / `NoValidQuestions` / `MalformedResponse` /
  generic exception);
* `save_quiz_to_file` (lines 109-116), with `datetime.now()` passed in
  explicitly and `datetime.strftime("%Y-%m-%d %H:%M:%S")` modelled;
* the wizard state machine of `main` (session state `current_step`
  in input/generated/saved, the buttons that move between the steps).

Text is modelled as `List Char` (Python strings are sequences of code
points, and Python slicing/stripping is per-character). JSON values are
modelled by `JsonVal`; Python's `json.loads` (stdlib, not part of the
repository) is modelled by the executable `jsonLoads` below, which covers
the fragment relevant to this program: null, booleans, integers, strings
(with the common escapes), arrays and objects.  JSON floats and `\uXXXX`
escapes are not modelled; no theorem below depends on them.  Python `dict`
semantics are respected: a duplicated object key keeps its first position
and the last value, and assigning a new key appends it at the end.
-/

/-- JSON values as produced by Python's `json.loads` for the fragment this
program consumes.  Python booleans are a distinct constructor because the
source checks `isinstance(x, int)`, which is `True` for `bool` as well
(`True == 1`, `False == 0`); see `asInt`. -/
inductive JsonVal where
  | null
  | bool (b : Bool)
  | int (n : Int)
  | str (s : String)
  | arr (xs : List JsonVal)
  | obj (kvs : List (String × JsonVal))

/-- Lookup in a Python dict modelled as an ordered association list
(first occurrence wins; `jsonLoads` builds lists without duplicate keys). -/
def lookupKey : List (String × JsonVal) → String → Option JsonVal
  | [], _ => none
  | (k', v) :: rest, k => if k' == k then some v else lookupKey rest k

/-- Python dict assignment `d[k] = v`: replace in place when the key
exists, append at the end otherwise. -/
def insertKey : List (String × JsonVal) → String → JsonVal → List (String × JsonVal)
  | [], k, v => [(k, v)]
  | (k', v') :: rest, k, v =>
    if k' == k then (k', v) :: rest else (k', v') :: insertKey rest k v

/-- `d[k]` on a `JsonVal`, `none` when the value is not an object or lacks
the key. -/
def getKey : JsonVal → String → Option JsonVal
  | .obj kvs, k => lookupKey kvs k
  | _, _ => none

/-! ## Model of `json.loads` (Python stdlib) -/

/-- JSON whitespace as accepted between tokens by `json.loads`. -/
def isJsonWs (c : Char) : Bool :=
  c == ' ' || c == '\t' || c == '\n' || c == '\r'

def skipJsonWs (cs : List Char) : List Char :=
  cs.dropWhile isJsonWs

/-- Translation of a JSON escape character (after a backslash) to the
character it denotes; identity on `"`,`\`,`/`. -/
def escChar (c : Char) : Char :=
  if c == 'n' then '\n'
  else if c == 't' then '\t'
  else if c == 'r' then '\r'
  else if c == 'b' then '\x08'
  else if c == 'f' then '\x0c'
  else c

/-- Parse the remainder of a JSON string literal (the opening quote has
been consumed); returns the character data and the rest of the input. -/
def parseStringLit : List Char → Option (List Char × List Char)
  | [] => none
  | '"' :: rest => some ([], rest)
  | '\\' :: c :: rest =>
    match parseStringLit rest with
    | some (s, r) => some (escChar c :: s, r)
    | none => none
  | c :: rest =>
    match parseStringLit rest with
    | some (s, r) => some (c :: s, r)
    | none => none

/-- Parse a nonempty run of decimal digits into a `Nat`. -/
def parseDigits (cs : List Char) : Option (Nat × List Char) :=
  let ds := cs.takeWhile Char.isDigit
  if ds.isEmpty then none
  else some (ds.foldl (fun acc c => acc * 10 + (c.toNat - 48)) 0, cs.dropWhile Char.isDigit)

/-- Parse a JSON integer (optional minus sign and digits). -/
def parseIntTok : List Char → Option (Int × List Char)
  | '-' :: rest =>
    match parseDigits rest with
    | some (n, r) => some (-(n : Int), r)
    | none => none
  | cs =>
    match parseDigits cs with
    | some (n, r) => some ((n : Int), r)
    | none => none

/-- Build a Python dict from the key/value pairs of an object literal in
order, later duplicates overriding earlier values in place. -/
def buildDict (ps : List (String × JsonVal)) : List (String × JsonVal) :=
  ps.foldl (fun d kv => insertKey d kv.1 kv.2) []

/-- Parse request: a single value, the items of an array (after `[` and
leading whitespace, nonempty case), or the members of an object. -/
inductive PMode where
  | val
  | arrItems
  | objItems

/-- Parse result for the three modes. -/
inductive PRes where
  | v (x : JsonVal)
  | vs (xs : List JsonVal)
  | ms (ps : List (String × JsonVal))

/-- Fuel-indexed recursive-descent parser covering the three syntactic
classes; the fuel only guarantees termination, `jsonLoads` supplies enough
for any input. -/
def parseF : Nat → PMode → List Char → Option (PRes × List Char)
  | 0, _, _ => none
  | fuel + 1, .val, cs =>
    match skipJsonWs cs with
    | 'n' :: 'u' :: 'l' :: 'l' :: r => some (.v .null, r)
    | 't' :: 'r' :: 'u' :: 'e' :: r => some (.v (.bool true), r)
    | 'f' :: 'a' :: 'l' :: 's' :: 'e' :: r => some (.v (.bool false), r)
    | '"' :: r =>
      match parseStringLit r with
      | some (s, r') => some (.v (.str (String.mk s)), r')
      | none => none
    | '[' :: r =>
      (match skipJsonWs r with
       | ']' :: r' => some (.v (.arr []), r')
       | r' =>
         match parseF fuel .arrItems r' with
         | some (.vs xs, r'') => some (.v (.arr xs), r'')
         | _ => none)
    | '{' :: r =>
      (match skipJsonWs r with
       | '}' :: r' => some (.v (.obj []), r')
       | r' =>
         match parseF fuel .objItems r' with
         | some (.ms ps, r'') => some (.v (.obj (buildDict ps)), r'')
         | _ => none)
    | cs' =>
      match parseIntTok cs' with
      | some (n, r) => some (.v (.int n), r)
      | none => none
  | fuel + 1, .arrItems, cs =>
    match parseF fuel .val cs with
    | some (.v x, r) =>
      (match skipJsonWs r with
       | ',' :: r' =>
         match parseF fuel .arrItems r' with
         | some (.vs xs, r'') => some (.vs (x :: xs), r'')
         | _ => none
       | ']' :: r' => some (.vs [x], r')
       | _ => none)
    | _ => none
  | fuel + 1, .objItems, cs =>
    match skipJsonWs cs with
    | '"' :: r =>
      (match parseStringLit r with
       | some (k, r1) =>
         (match skipJsonWs r1 with
          | ':' :: r2 =>
            (match parseF fuel .val r2 with
             | some (.v v, r3) =>
               (match skipJsonWs r3 with
                | ',' :: r4 =>
                  (match parseF fuel .objItems r4 with
                   | some (.ms ps, r5) => some (.ms ((String.mk k, v) :: ps), r5)
                   | _ => none)
                | '}' :: r4 => some (.ms [(String.mk k, v)], r4)
                | _ => none)
             | _ => none)
          | _ => none)
       | none => none)
    | _ => none

/-- Model of `json.loads`: parse one JSON value and require that only
whitespace remains. -/
def jsonLoads (cs : List Char) : Option JsonVal :=
  match parseF (cs.length + 1) .val cs with
  | some (.v x, rest) => if (skipJsonWs rest).isEmpty then some x else none
  | _ => none

/-! ## Model of Python `str.strip()` and the fence-marker clean-up -/

/-- The whitespace stripped by Python's `str.strip()` (the ASCII part;
the inputs of this program contain no exotic Unicode whitespace). -/
def isPyWs (c : Char) : Bool :=
  c == ' ' || c == '\t' || c == '\n' || c == '\r' || c == '\x0b' || c == '\x0c'

def trimL (cs : List Char) : List Char := cs.dropWhile isPyWs

def trimR (cs : List Char) : List Char := (cs.reverse.dropWhile isPyWs).reverse

/-- Python `str.strip()`. -/
def strip (cs : List Char) : List Char := trimR (trimL cs)

/-- The backtick character, U+0060. -/
def btick : Char := Char.ofNat 96

/-- The three-backtick fence delimiter. -/
def fence3 : List Char := [btick, btick, btick]

/-- The fence delimiter followed by the `json` language tag. -/
def fenceJson : List Char := [btick, btick, btick, 'j', 's', 'o', 'n']

/-- Line 63-64: `if content.startswith("```json"): content = content[7:]`. -/
def cutJsonStart (c : List Char) : List Char :=
  if fenceJson.isPrefixOf c then c.drop 7 else c

/-- Line 65-66: `if content.startswith("```"): content = content[3:]`. -/
def cutFenceStart (c : List Char) : List Char :=
  if fence3.isPrefixOf c then c.drop 3 else c

/-- Line 67-68: `if content.endswith("```"): content = content[:-3]`;
`content[:-3]` is `take (length - 3)`. -/
def cutFenceEnd (c : List Char) : List Char :=
  if fence3.isSuffixOf c then c.take (c.length - 3) else c

/-- Lines 60-69 of the source: strip the raw response, apply the three
fence-marker cuts in order, and strip again. -/
def stripFence (raw : List Char) : List Char :=
  strip (cutFenceEnd (cutFenceStart (cutJsonStart (strip raw))))

/-! ## Per-element validation (lines 75-90) -/

/-- Python `isinstance(x, int)` together with the integer value used in
comparisons: `bool` is a subclass of `int` in Python with `True == 1` and
`False == 0`, so JSON booleans pass the check. -/
def asInt : JsonVal → Option Int
  | .int n => some n
  | .bool b => some (if b then 1 else 0)
  | _ => none

/-- The element filter of lines 77-84: a dict having `question`, `options`
and `correct_answer` keys, whose `options` is a list of length at least 2
and whose `correct_answer` is an `int` (Python sense) with
`0 <= correct_answer < len(options)`. -/
def questionValid : JsonVal → Bool
  | .obj kvs =>
    (lookupKey kvs "question").isSome &&
    (match lookupKey kvs "options" with
     | some (.arr opts) =>
       decide (2 ≤ opts.length) &&
       (match lookupKey kvs "correct_answer" with
        | some ca =>
          (match asInt ca with
           | some n => decide ((0 : Int) ≤ n) && decide (n < (opts.length : Int))
           | none => false)
        | none => false)
     | _ => false)
  | _ => false

/-- Lines 87-88: `if 'explanation' not in q: q['explanation'] = ...` -/
def ensureExplanation : JsonVal → JsonVal
  | .obj kvs =>
    if (lookupKey kvs "explanation").isSome then .obj kvs
    else .obj (kvs ++ [("explanation", .str "Explanation not provided.")])
  | v => v

/-- The accumulator loop of lines 75-90 (`validated_questions = []` then
append each accepted, explanation-normalized element). -/
def validateLoop (acc : List JsonVal) : List JsonVal → List JsonVal
  | [] => acc
  | q :: rest =>
    if questionValid q then validateLoop (acc ++ [ensureExplanation q]) rest
    else validateLoop acc rest

def validateQuestions (qs : List JsonVal) : List JsonVal :=
  validateLoop [] qs

/-! ## The full response pipeline (lines 60-107) -/

/-- The error outcomes reported through `st.error`:
`malformedResponse` carries the diagnostic excerpt `content[:500]`
(line 101); `noValidQuestions` is line 96; `apiError` is the outer
`except Exception` handler of lines 104-107 (the spec's
`TransportFailure`), which also catches the `TypeError` raised by
iterating a non-iterable parse result. -/
inductive ErrorKind where
  | malformedResponse (excerpt : List Char)
  | noValidQuestions
  | apiError

/-- Python iteration `for q in questions` for each possible `json.loads`
result: a list yields its elements, a dict its keys, a string its
one-character substrings; numbers, booleans and `None` are not iterable
(`TypeError`, caught by the outer generic handler). -/
def pyIter : JsonVal → Option (List JsonVal)
  | .arr xs => some xs
  | .obj kvs => some (kvs.map (fun kv => .str kv.1))
  | .str s => some (s.data.map (fun c => .str (String.mk [c])))
  | _ => none

/-- Lines 92-97: return the validated list when nonempty, otherwise report
`NoValidQuestions`. -/
def processList (qs : List JsonVal) : List JsonVal × Option ErrorKind :=
  match validateQuestions qs with
  | [] => ([], some .noValidQuestions)
  | q :: rest => (q :: rest, none)

/-- Lines 75-97 applied to a successfully parsed value: iterate it
(raising for non-iterables) and validate the elements. -/
def processParsed (v : JsonVal) : List JsonVal × Option ErrorKind :=
  match pyIter v with
  | none => ([], some .apiError)
  | some qs => processList qs

/-- Lines 71-107 applied to the cleaned-up content. -/
def processContent (content : List Char) : List JsonVal × Option ErrorKind :=
  match jsonLoads content with
  | none => ([], some (.malformedResponse (content.take 500)))
  | some v => processParsed v

/-- The validation routine the spec calls `parseAndValidate`: lines 60-107
of `generate_questions_with_gemini`, from the raw response text to the
validated records and the reported error kind. -/
def parseAndValidate (rawText : List Char) : List JsonVal × Option ErrorKind :=
  processContent (stripFence rawText)

/-! ## `save_quiz_to_file` (lines 109-116) -/

/-- The fields of a Python `datetime` used by the export. -/
structure PyDateTime where
  year : Nat
  month : Nat
  day : Nat
  hour : Nat
  minute : Nat
  second : Nat

/-- Decimal digit character for `n % 10`. -/
def digitChar (n : Nat) : Char := Char.ofNat (48 + n % 10)

/-- Two-digit zero-padded field, as `strftime` renders `%m %d %H %M %S`
for their value ranges. -/
def pad2 (n : Nat) : List Char := [digitChar (n / 10), digitChar n]

/-- Four-digit zero-padded field, as CPython's `strftime` renders `%Y`
for years up to 9999. -/
def pad4 (n : Nat) : List Char :=
  [digitChar (n / 1000), digitChar (n / 100), digitChar (n / 10), digitChar n]

/-- `datetime.strftime("%Y-%m-%d %H:%M:%S")`. -/
def strftimeYmdHMS (t : PyDateTime) : List Char :=
  pad4 t.year ++ '-' :: (pad2 t.month ++ '-' :: (pad2 t.day ++
    ' ' :: (pad2 t.hour ++ ':' :: (pad2 t.minute ++ ':' :: pad2 t.second))))

/-- `save_quiz_to_file` builds the dict serialized by `json.dumps`
(the serialization itself is stdlib and outside the model); `datetime.now()`
is passed in explicitly as `now`. -/
def save_quiz_to_file (questions : List JsonVal) (quiz_title : String)
    (now : PyDateTime) : JsonVal :=
  .obj [("quiz_title", .str quiz_title),
        ("created_date", .str (String.mk (strftimeYmdHMS now))),
        ("total_questions", .int (questions.length : Int)),
        ("questions", .arr questions)]

/-- Modelled from the spec: the `YYYY-MM-DD HH:MM:SS` shape required of
`created_date` — 19 characters, digits everywhere except `-` at positions
4 and 7, a space at position 10 and `:` at positions 13 and 16. -/
def isDateTimeFormat : List Char → Bool
  | [y1, y2, y3, y4, a1, m1, m2, a2, d1, d2, a3, h1, h2, a4, n1, n2, a5, e1, e2] =>
    y1.isDigit && y2.isDigit && y3.isDigit && y4.isDigit &&
    a1 == '-' && m1.isDigit && m2.isDigit && a2 == '-' &&
    d1.isDigit && d2.isDigit && a3 == ' ' &&
    h1.isDigit && h2.isDigit && a4 == ':' &&
    n1.isDigit && n2.isDigit && a5 == ':' && e1.isDigit && e2.isDigit
  | _ => false

/-! ## The wizard state machine of `main` (lines 118-325) -/

/-- `st.session_state.current_step`. -/
inductive Step where
  | input
  | generated
  | saved

/-- The session state relevant to the wizard: the generated questions,
the `quiz_generated` flag and the current step. -/
structure AppState where
  questions : List JsonVal
  quizGenerated : Bool
  currentStep : Step

/-- `initialize_session_state` (lines 19-25). -/
def initState : AppState := ⟨[], false, .input⟩

/-- The user actions that change the session state.  `clickGenerate`
carries the topic text, the available API key and the model's raw
response (`none` when the API call itself raises, in which case the
generation function returns `[]`). -/
inductive Event where
  | startNewQuiz
  | clickGenerate (topic : List Char) (apiKey : List Char) (response : Option (List Char))
  | generateNewQuiz
  | saveQuiz
  | createAnotherQuiz
  | backToQuiz
  | generateMoreQuestions

/-- The records `generate_questions_with_gemini` hands back for a given
API outcome: `[]` when the call raised (lines 104-107), otherwise the
validator's output on the raw response text. -/
def generateResult (response : Option (List Char)) : List JsonVal :=
  match response with
  | none => []
  | some raw => (parseAndValidate raw).1

/-- Lines 189-216: with an empty topic or no API key only an error is
shown; otherwise `st.session_state.questions` is set to the generation
result and the step advances to `generated` exactly when that result is
nonempty. -/
def clickGenerateFn (s : AppState) (topic apiKey : List Char)
    (response : Option (List Char)) : AppState :=
  if topic.isEmpty then s
  else if apiKey.isEmpty then s
  else
    match generateResult response with
    | [] => { s with questions := [] }
    | q :: rest => ⟨q :: rest, true, .generated⟩

/-- One step of the wizard.  Buttons only exist on the page of their
step, so events for other steps leave the state unchanged. -/
def stepFn (s : AppState) (e : Event) : AppState :=
  match e with
  | .startNewQuiz => ⟨[], false, .input⟩
  | .clickGenerate topic apiKey response =>
    (match s.currentStep with
     | .input => clickGenerateFn s topic apiKey response
     | _ => s)
  | .generateNewQuiz =>
    (match s.currentStep with
     | .generated => { s with currentStep := .input }
     | _ => s)
  | .saveQuiz =>
    (match s.currentStep with
     | .generated => { s with currentStep := .saved }
     | _ => s)
  | .createAnotherQuiz =>
    (match s.currentStep with
     | .saved => ⟨[], false, .input⟩
     | _ => s)
  | .backToQuiz =>
    (match s.currentStep with
     | .saved => { s with currentStep := .generated }
     | _ => s)
  | .generateMoreQuestions =>
    (match s.currentStep with
     | .saved => { s with currentStep := .input }
     | _ => s)

/-- States reachable from the fresh session state. -/
inductive Reachable : AppState → Prop where
  | init : Reachable initState
  | step {s : AppState} (e : Event) : Reachable s → Reachable (stepFn s e)

/-! ## Helper lemmas about the validation loop and dict lookups -/

theorem validateLoop_eq (qs : List JsonVal) : ∀ acc,
    validateLoop acc qs = acc ++ (qs.filter questionValid).map ensureExplanation := by
  induction qs with
  | nil => intro acc; simp [validateLoop]
  | cons q rest ih =>
    intro acc
    cases h : questionValid q with
    | true => simp [validateLoop, h, ih, List.filter_cons]
    | false => simp [validateLoop, h, ih, List.filter_cons]

theorem validateQuestions_eq (qs : List JsonVal) :
    validateQuestions qs = (qs.filter questionValid).map ensureExplanation := by
  simpa [validateQuestions] using validateLoop_eq qs []

theorem lookupKey_append_single (kvs : List (String × JsonVal)) (a : String)
    (b : JsonVal) (k : String) :
    lookupKey (kvs ++ [(a, b)]) k =
      match lookupKey kvs k with
      | some w => some w
      | none => if a == k then some b else none := by
  induction kvs with
  | nil => simp [lookupKey]
  | cons kv rest ih =>
    obtain ⟨k', v⟩ := kv
    by_cases h : (k' == k) = true
    · simp [lookupKey, h]
    · simp only [List.cons_append, lookupKey, h, if_neg]
      exact ih

theorem questionValid_elim (kvs : List (String × JsonVal))
    (h : questionValid (.obj kvs) = true) :
    (lookupKey kvs "question").isSome = true ∧
      ∃ opts, lookupKey kvs "options" = some (.arr opts) ∧ 2 ≤ opts.length ∧
        ∃ ca n, lookupKey kvs "correct_answer" = some ca ∧ asInt ca = some n ∧
          0 ≤ n ∧ n < (opts.length : Int) := by
  unfold questionValid at h
  rcases Bool.and_eq_true_iff.mp h with ⟨hq, hrest⟩
  refine ⟨hq, ?_⟩
  split at hrest
  · rename_i opts ho
    rcases Bool.and_eq_true_iff.mp hrest with ⟨hlen, hca⟩
    refine ⟨opts, ho, of_decide_eq_true hlen, ?_⟩
    split at hca
    · rename_i ca hc
      split at hca
      · rename_i n hn
        rcases Bool.and_eq_true_iff.mp hca with ⟨h0, h1⟩
        exact ⟨ca, n, hc, hn, of_decide_eq_true h0, of_decide_eq_true h1⟩
      · simp at hca
    · simp at hca
  · simp at hrest

theorem questionValid_obj (q : JsonVal) (h : questionValid q = true) :
    ∃ kvs, q = .obj kvs := by
  cases q with
  | obj kvs => exact ⟨kvs, rfl⟩
  | null => exact absurd h (by simp [questionValid])
  | bool b => exact absurd h (by simp [questionValid])
  | int n => exact absurd h (by simp [questionValid])
  | str s => exact absurd h (by simp [questionValid])
  | arr xs => exact absurd h (by simp [questionValid])

/-! ## Helper lemmas about `strip` (Python `str.strip()`) -/

theorem dropWhile_append_nonp {p : Char → Bool} {x : Char} (hx : p x = false) :
    ∀ (as : List Char), (as ++ [x]).dropWhile p = as.dropWhile p ++ [x] := by
  intro as
  induction as with
  | nil => simp [List.dropWhile, hx]
  | cons a as ih =>
    cases ha : p a with
    | true => simp [List.dropWhile, ha, ih]
    | false => simp [List.dropWhile, ha]

theorem dropWhile_self_idem {p : Char → Bool} :
    ∀ (l : List Char), (l.dropWhile p).dropWhile p = l.dropWhile p := by
  intro l
  induction l with
  | nil => rfl
  | cons a l ih =>
    cases ha : p a with
    | true => simp [List.dropWhile, ha, ih]
    | false => simp [List.dropWhile, ha]

theorem trimL_cons_ws {c : Char} (hc : isPyWs c = true) (l : List Char) :
    trimL (c :: l) = trimL l := by
  simp [trimL, List.dropWhile, hc]

theorem trimL_cons_nonws {c : Char} (hc : isPyWs c = false) (l : List Char) :
    trimL (c :: l) = c :: l := by
  simp [trimL, List.dropWhile, hc]

theorem trimR_append_ws {d : Char} (hd : isPyWs d = true) (l : List Char) :
    trimR (l ++ [d]) = trimR l := by
  simp [trimR, List.dropWhile, hd]

theorem trimR_append_nonws {d : Char} (hd : isPyWs d = false) (l : List Char) :
    trimR (l ++ [d]) = l ++ [d] := by
  simp [trimR, List.dropWhile, hd]

theorem trimR_cons_nonws {c : Char} (hc : isPyWs c = false) (l : List Char) :
    trimR (c :: l) = c :: trimR l := by
  show ((c :: l).reverse.dropWhile isPyWs).reverse = c :: (l.reverse.dropWhile isPyWs).reverse
  rw [List.reverse_cons, dropWhile_append_nonp hc, List.reverse_append]
  rfl

theorem trimR_idem (l : List Char) : trimR (trimR l) = trimR l := by
  show (((l.reverse.dropWhile isPyWs).reverse).reverse.dropWhile isPyWs).reverse = _
  rw [List.reverse_reverse, dropWhile_self_idem]
  rfl

theorem strip_cons_ws {c : Char} (hc : isPyWs c = true) (l : List Char) :
    strip (c :: l) = strip l := by
  simp [strip, trimL_cons_ws hc]

theorem strip_append_ws {d : Char} (hd : isPyWs d = true) :
    ∀ (l : List Char), strip (l ++ [d]) = strip l := by
  intro l
  induction l with
  | nil => simp [strip, trimL, trimR, List.dropWhile, hd]
  | cons c l ih =>
    cases hc : isPyWs c with
    | true =>
      rw [List.cons_append, strip_cons_ws hc, strip_cons_ws hc]
      exact ih
    | false =>
      rw [List.cons_append]
      show trimR (trimL (c :: (l ++ [d]))) = trimR (trimL (c :: l))
      rw [trimL_cons_nonws hc, trimL_cons_nonws hc,
        trimR_cons_nonws hc, trimR_cons_nonws hc, trimR_append_ws hd]

theorem strip_idem : ∀ (l : List Char), strip (strip l) = strip l := by
  intro l
  induction l with
  | nil => rfl
  | cons c l ih =>
    cases hc : isPyWs c with
    | true => rw [strip_cons_ws hc]; exact ih
    | false =>
      have h1 : strip (c :: l) = c :: trimR l := by
        show trimR (trimL (c :: l)) = _
        rw [trimL_cons_nonws hc, trimR_cons_nonws hc]
      rw [h1]
      show trimR (trimL (c :: trimR l)) = _
      rw [trimL_cons_nonws hc, trimR_cons_nonws hc, trimR_idem]

/-! ## Helper lemmas about the fence-marker clean-up -/

theorem isPrefixOf_append_self (l m : List Char) : l.isPrefixOf (l ++ m) = true := by
  simp

theorem isPrefixOf_of_append_isPrefixOf (l₁ l₂ l : List Char)
    (h : (l₁ ++ l₂).isPrefixOf l = true) : l₁.isPrefixOf l = true := by
  rw [ List.isPrefixOf_iff_prefix] at h ⊢
  exact (List.prefix_append l₁ l₂).trans h

theorem isSuffixOf_append_self (m t : List Char) : t.isSuffixOf (m ++ t) = true := by
  simp

theorem strip_eq_self_between (c d : Char) (hc : isPyWs c = false)
    (hd : isPyWs d = false) (mid : List Char) :
    strip (c :: (mid ++ [d])) = c :: (mid ++ [d]) := by
  rw [strip, trimL_cons_nonws hc]
  show trimR ((c :: mid) ++ [d]) = c :: (mid ++ [d])
  rw [trimR_append_nonws hd]
  rfl

theorem strip_tail_newlines (p : List Char) :
    strip (('\n' :: p) ++ ['\n']) = strip p := by
  rw [List.cons_append, strip_cons_ws (by decide) (p ++ ['\n']),
    strip_append_ws (by decide)]

theorem fence3_not_prefix_newline (l : List Char) :
    fence3.isPrefixOf ('\n' :: l) = false := by
  show List.isPrefixOf (btick :: [btick, btick]) ('\n' :: l) = false
  rw [List.isPrefixOf_cons₂]
  simp [show (btick == '\n') = false from by decide]

theorem fenceJson_not_prefix_fence_newline (l : List Char) :
    fenceJson.isPrefixOf (fence3 ++ ('\n' :: l)) = false := by
  show List.isPrefixOf (btick :: btick :: btick :: 'j' :: ['s', 'o', 'n'])
      (btick :: btick :: btick :: '\n' :: l) = false
  rw [List.isPrefixOf_cons₂, List.isPrefixOf_cons₂, List.isPrefixOf_cons₂,
    List.isPrefixOf_cons₂]
  simp [show ('j' == '\n') = false from by decide]

theorem cutFenceEnd_tail (p : List Char) :
    cutFenceEnd (('\n' :: p) ++ ('\n' :: fence3)) = ('\n' :: p) ++ ['\n'] := by
  have hform : ('\n' :: p) ++ ('\n' :: fence3) = (('\n' :: p) ++ ['\n']) ++ fence3 := by
    simp
  unfold cutFenceEnd
  rw [hform, if_pos (isSuffixOf_append_self _ _)]
  have hlen : ((('\n' :: p) ++ ['\n']) ++ fence3).length - 3 = (('\n' :: p) ++ ['\n']).length := by
    simp [fence3]
  rw [hlen, List.take_left]

theorem stripFence_wrapJson (p : List Char) :
    stripFence (fenceJson ++ (('\n' :: p) ++ ('\n' :: fence3))) = strip p := by
  have hstrip : strip (fenceJson ++ (('\n' :: p) ++ ('\n' :: fence3))) =
      fenceJson ++ (('\n' :: p) ++ ('\n' :: fence3)) := by
    have eM : fenceJson ++ (('\n' :: p) ++ ('\n' :: fence3)) =
        btick :: ((([btick, btick, 'j', 's', 'o', 'n', '\n'] ++ p) ++ ['\n', btick, btick]) ++ [btick]) := by
      simp [fenceJson, fence3]
    rw [eM]
    exact strip_eq_self_between btick btick (by decide) (by decide) _
  have hcut1 : cutJsonStart (fenceJson ++ (('\n' :: p) ++ ('\n' :: fence3))) =
      ('\n' :: p) ++ ('\n' :: fence3) := by
    unfold cutJsonStart
    rw [if_pos (isPrefixOf_append_self _ _)]
    have h7 : (7 : Nat) = fenceJson.length := rfl
    rw [h7, List.drop_left]
  have hcut2 : cutFenceStart (('\n' :: p) ++ ('\n' :: fence3)) =
      ('\n' :: p) ++ ('\n' :: fence3) := by
    have hb : fence3.isPrefixOf (('\n' :: p) ++ ('\n' :: fence3)) = false :=
      fence3_not_prefix_newline (p ++ ('\n' :: fence3))
    unfold cutFenceStart
    rw [if_neg]
    intro h
    rw [hb] at h
    exact Bool.false_ne_true h
  rw [stripFence, hstrip, hcut1, hcut2, cutFenceEnd_tail, strip_tail_newlines]

theorem stripFence_wrapNoTag (p : List Char) :
    stripFence (fence3 ++ (('\n' :: p) ++ ('\n' :: fence3))) = strip p := by
  have hstrip : strip (fence3 ++ (('\n' :: p) ++ ('\n' :: fence3))) =
      fence3 ++ (('\n' :: p) ++ ('\n' :: fence3)) := by
    have eM : fence3 ++ (('\n' :: p) ++ ('\n' :: fence3)) =
        btick :: ((([btick, btick, '\n'] ++ p) ++ ['\n', btick, btick]) ++ [btick]) := by
      simp [fence3]
    rw [eM]
    exact strip_eq_self_between btick btick (by decide) (by decide) _
  have hcut1 : cutJsonStart (fence3 ++ (('\n' :: p) ++ ('\n' :: fence3))) =
      fence3 ++ (('\n' :: p) ++ ('\n' :: fence3)) := by
    have hb : fenceJson.isPrefixOf (fence3 ++ (('\n' :: p) ++ ('\n' :: fence3))) = false :=
      fenceJson_not_prefix_fence_newline (p ++ ('\n' :: fence3))
    unfold cutJsonStart
    rw [if_neg]
    intro h
    rw [hb] at h
    exact Bool.false_ne_true h
  have hcut2 : cutFenceStart (fence3 ++ (('\n' :: p) ++ ('\n' :: fence3))) =
      ('\n' :: p) ++ ('\n' :: fence3) := by
    unfold cutFenceStart
    rw [if_pos (isPrefixOf_append_self _ _)]
    have h3 : (3 : Nat) = fence3.length := rfl
    rw [h3, List.drop_left]
  rw [stripFence, hstrip, hcut1, hcut2, cutFenceEnd_tail, strip_tail_newlines]

theorem stripFence_of_nofence (p : List Char)
    (h1 : fence3.isPrefixOf (strip p) = false)
    (h2 : fence3.isSuffixOf (strip p) = false) :
    stripFence p = strip p := by
  have hcut1 : cutJsonStart (strip p) = strip p := by
    unfold cutJsonStart
    rw [if_neg]
    intro hj
    have hpre : fence3.isPrefixOf (strip p) = true :=
      isPrefixOf_of_append_isPrefixOf fence3 ['j', 's', 'o', 'n'] _ hj
    rw [h1] at hpre
    exact Bool.false_ne_true hpre
  have hcut2 : cutFenceStart (strip p) = strip p := by
    simp [cutFenceStart, h1]
  have hcut3 : cutFenceEnd (strip p) = strip p := by
    simp [cutFenceEnd, h2]
  rw [stripFence, hcut1, hcut2, hcut3, strip_idem]

/-! ## Helper lemmas about `ensureExplanation` -/

theorem ensureExplanation_of_present (kvs : List (String × JsonVal))
    (h : (lookupKey kvs "explanation").isSome = true) :
    ensureExplanation (.obj kvs) = .obj kvs := by
  simp [ensureExplanation, h]

theorem ensureExplanation_of_absent (kvs : List (String × JsonVal))
    (h : lookupKey kvs "explanation" = none) :
    ensureExplanation (.obj kvs) =
      .obj (kvs ++ [("explanation", .str "Explanation not provided.")]) := by
  simp [ensureExplanation, h]

theorem lookupKey_append_of_some (kvs : List (String × JsonVal)) (a : String)
    (b : JsonVal) (k : String) (w : JsonVal) (h : lookupKey kvs k = some w) :
    lookupKey (kvs ++ [(a, b)]) k = some w := by
  rw [lookupKey_append_single, h]

theorem getKey_ensureExplanation_other (kvs : List (String × JsonVal)) (k : String)
    (hk : ("explanation" == k) = false) :
    getKey (ensureExplanation (.obj kvs)) k = getKey (.obj kvs) k := by
  cases h : lookupKey kvs "explanation" with
  | some v => rw [ensureExplanation_of_present kvs (by rw [h]; rfl)]
  | none =>
    rw [ensureExplanation_of_absent kvs h]
    show lookupKey (kvs ++ [("explanation", JsonVal.str "Explanation not provided.")]) k =
      lookupKey kvs k
    rw [lookupKey_append_single]
    cases hl : lookupKey kvs k with
    | some w => rfl
    | none => simp [hk]

theorem getKey_ensureExplanation_absent (kvs : List (String × JsonVal))
    (h : lookupKey kvs "explanation" = none) :
    getKey (ensureExplanation (.obj kvs)) "explanation" =
      some (.str "Explanation not provided.") := by
  rw [ensureExplanation_of_absent kvs h]
  show lookupKey (kvs ++ [("explanation", JsonVal.str "Explanation not provided.")])
    "explanation" = _
  rw [lookupKey_append_single, h]
  simp

theorem mem_validateQuestions_of_valid (qs : List JsonVal) (q : JsonVal)
    (hq : q ∈ qs) (hv : questionValid q = true) :
    ensureExplanation q ∈ validateQuestions qs := by
  rw [validateQuestions_eq]
  exact List.mem_map_of_mem _ (List.mem_filter.mpr ⟨hq, hv⟩)

theorem processList_fst (qs : List JsonVal) :
    (processList qs).1 = validateQuestions qs := by
  unfold processList
  cases hval : validateQuestions qs with
  | nil => rfl
  | cons q rest => rfl

theorem processContent_of_arr (content : List Char) (qs : List JsonVal)
    (hj : jsonLoads content = some (.arr qs)) :
    processContent content = processList qs := by
  unfold processContent
  simp only [hj]
  rfl

theorem mem_parseAndValidate (raw : List Char) (r : JsonVal)
    (hr : r ∈ (parseAndValidate raw).1) : ∃ qs, r ∈ validateQuestions qs := by
  unfold parseAndValidate processContent at hr
  cases hj : jsonLoads (stripFence raw) with
  | none => simp only [hj] at hr; simp at hr
  | some v =>
    simp only [hj] at hr
    unfold processParsed at hr
    cases hi : pyIter v with
    | none => simp only [hi] at hr; simp at hr
    | some qs =>
      simp only [hi] at hr
      rw [processList_fst] at hr
      exact ⟨qs, hr⟩

/-! ## Claim theorems -/

/-- C1 (amended): every record in the validated output of `parseAndValidate`
is an object with a `question` key, an `options` list of length at least 2,
a `correct_answer` accepted by Python's `int` check (an integer, or a
boolean read as 0/1) lying within bounds, and an `explanation` key
(defaulted when absent); elements failing any of these checked constraints
are dropped.  The code does not enforce the spec's stronger requirement
that `question` be non-empty text, nor that options be text. -/
theorem parseAndValidate_record_invariant (raw : List Char) (r : JsonVal)
    (hr : r ∈ (parseAndValidate raw).1) :
    ∃ kvs, r = .obj kvs ∧
      (lookupKey kvs "question").isSome = true ∧
      (∃ opts, lookupKey kvs "options" = some (.arr opts) ∧ 2 ≤ opts.length ∧
        ∃ ca n, lookupKey kvs "correct_answer" = some ca ∧ asInt ca = some n ∧
          0 ≤ n ∧ n < (opts.length : Int)) ∧
      (lookupKey kvs "explanation").isSome = true := by
  rcases mem_parseAndValidate raw r hr with ⟨qs, hmem⟩
  rw [validateQuestions_eq] at hmem
  rcases List.mem_map.mp hmem with ⟨q, hqf, rfl⟩
  have hv : questionValid q = true := (List.mem_filter.mp hqf).2
  rcases questionValid_obj q hv with ⟨kvs, rfl⟩
  rcases questionValid_elim kvs hv with ⟨hq, opts, ho, hlen, ca, n, hc, hn, h0, h1⟩
  cases hex : lookupKey kvs "explanation" with
  | some v =>
    rw [ensureExplanation_of_present kvs (by rw [hex]; rfl)]
    exact ⟨kvs, rfl, hq, ⟨opts, ho, hlen, ca, n, hc, hn, h0, h1⟩, by rw [hex]; rfl⟩
  | none =>
    rw [ensureExplanation_of_absent kvs hex]
    refine ⟨kvs ++ [("explanation", .str "Explanation not provided.")], rfl, ?_, ?_, ?_⟩
    · rcases Option.isSome_iff_exists.mp hq with ⟨w, hw⟩
      rw [lookupKey_append_of_some kvs _ _ _ w hw]
      rfl
    · exact ⟨opts, lookupKey_append_of_some kvs _ _ _ _ ho, hlen, ca, n,
        lookupKey_append_of_some kvs _ _ _ _ hc, hn, h0, h1⟩
    · rw [lookupKey_append_single, hex]
      simp

/-- Witness for C1 at a concrete accepted record. -/
theorem parseAndValidate_record_invariant_witness :
    ∃ kvs, (JsonVal.obj [("question", .str "W1"), ("options", .arr [.str "x", .str "y"]),
        ("correct_answer", .int 1), ("explanation", .str "Explanation not provided.")]) = .obj kvs ∧
      (lookupKey kvs "question").isSome = true ∧
      (∃ opts, lookupKey kvs "options" = some (.arr opts) ∧ 2 ≤ opts.length ∧
        ∃ ca n, lookupKey kvs "correct_answer" = some ca ∧ asInt ca = some n ∧
          0 ≤ n ∧ n < (opts.length : Int)) ∧
      (lookupKey kvs "explanation").isSome = true :=
  parseAndValidate_record_invariant
    ("[\x7b\"question\": \"W1\", \"options\": [\"x\", \"y\"], \"correct_answer\": 1\x7d]".data)
    _ (List.mem_singleton.mpr rfl)

/-- C1 counterexample: a record whose `question` is the empty string is
retained in the validated output, so the "non-empty text" constraint of
the claim does not hold of the output. -/
theorem parseAndValidate_empty_question_retained :
    parseAndValidate ("[\x7b\"question\": \"\", \"options\": [\"A\", \"B\"], \"correct_answer\": 0\x7d]".data)
      = ([.obj [("question", .str ""), ("options", .arr [.str "A", .str "B"]),
          ("correct_answer", .int 0), ("explanation", .str "Explanation not provided.")]], none) ∧
    getKey (.obj [("question", .str ""), ("options", .arr [.str "A", .str "B"]),
          ("correct_answer", .int 0), ("explanation", .str "Explanation not provided.")]) "question"
      = some (.str "") ∧ ("" : String).length = 0 :=
  ⟨rfl, rfl, rfl⟩

/-- C9 (confirmed): for any input whose cleaned-up text parses as a JSON
array, the validated output is exactly the in-order subsequence of array
elements passing validation, each normalized by `ensureExplanation`:
validation never reorders, duplicates or synthesizes records. -/
theorem parseAndValidate_filter_map (raw : List Char) (qs : List JsonVal)
    (hj : jsonLoads (stripFence raw) = some (.arr qs)) :
    (parseAndValidate raw).1 = (qs.filter questionValid).map ensureExplanation := by
  show (processContent (stripFence raw)).1 = _
  rw [processContent_of_arr _ _ hj, processList_fst, validateQuestions_eq]

/-- Witness for C9: an invalid element interleaved with a valid one. -/
theorem parseAndValidate_filter_map_witness :
    (parseAndValidate ("[1, \x7b\"question\": \"q\", \"options\": [\"a\", \"b\"], \"correct_answer\": 1\x7d]".data)).1
      = (([.int 1, .obj [("question", .str "q"), ("options", .arr [.str "a", .str "b"]),
          ("correct_answer", .int 1)]] : List JsonVal).filter questionValid).map ensureExplanation :=
  parseAndValidate_filter_map _ _ rfl

/-- C4 (confirmed): a syntactically valid JSON array in which no element
passes validation (including the empty array) yields an empty list and
`NoValidQuestions`. -/
theorem parseAndValidate_all_invalid (raw : List Char) (qs : List JsonVal)
    (hj : jsonLoads (stripFence raw) = some (.arr qs))
    (hinv : ∀ q ∈ qs, questionValid q = false) :
    parseAndValidate raw = ([], some .noValidQuestions) := by
  show processContent (stripFence raw) = _
  rw [processContent_of_arr _ _ hj]
  have hnil : validateQuestions qs = [] := by
    rw [validateQuestions_eq]
    have hf : qs.filter questionValid = [] := by
      rw [List.filter_eq_nil_iff]
      intro q hq
      rw [hinv q hq]
      simp
    rw [hf]
    rfl
  unfold processList
  simp only [hnil]

/-- Witness for C4 at the array `[3]`. -/
theorem parseAndValidate_all_invalid_witness :
    parseAndValidate ("[3]".data) = ([], some .noValidQuestions) :=
  parseAndValidate_all_invalid _ [.int 3] rfl
    (by intro q hq; rcases List.mem_singleton.mp hq with rfl; rfl)

/-- C2 (amended): for a well-formed JSON array of valid question objects
that is nonempty, `parseAndValidate` returns exactly that number of
records, `explanation` is set to the literal placeholder where absent, and
no error is signalled.  (For the empty array — all of whose zero elements
are vacuously valid — the code signals `NoValidQuestions` instead; see the
counterexample.) -/
theorem parseAndValidate_all_valid (raw : List Char) (qs : List JsonVal)
    (hj : jsonLoads (stripFence raw) = some (.arr qs))
    (hne : qs ≠ [])
    (hval : ∀ q ∈ qs, questionValid q = true) :
    parseAndValidate raw = (qs.map ensureExplanation, none) ∧
    (qs.map ensureExplanation).length = qs.length ∧
    ∀ q ∈ qs, getKey q "explanation" = none →
      getKey (ensureExplanation q) "explanation" = some (.str "Explanation not provided.") := by
  have hfilter : qs.filter questionValid = qs := List.filter_eq_self.mpr hval
  have hvv : validateQuestions qs = qs.map ensureExplanation := by
    rw [validateQuestions_eq, hfilter]
  refine ⟨?_, by simp, ?_⟩
  · show processContent (stripFence raw) = _
    rw [processContent_of_arr _ _ hj]
    unfold processList
    rw [hvv]
    rcases List.exists_cons_of_ne_nil hne with ⟨q0, rest0, rfl⟩
    rfl
  · intro q hq hex
    rcases questionValid_obj q (hval q hq) with ⟨kvs, rfl⟩
    exact getKey_ensureExplanation_absent kvs hex

/-- Witness for C2 at a singleton array without `explanation`. -/
theorem parseAndValidate_all_valid_witness :
    parseAndValidate ("[\x7b\"question\": \"W2\", \"options\": [\"u\", \"v\", \"w\"], \"correct_answer\": 2\x7d]".data)
      = (([.obj [("question", .str "W2"), ("options", .arr [.str "u", .str "v", .str "w"]),
          ("correct_answer", .int 2)]] : List JsonVal).map ensureExplanation, none) ∧
    (([.obj [("question", .str "W2"), ("options", .arr [.str "u", .str "v", .str "w"]),
          ("correct_answer", .int 2)]] : List JsonVal).map ensureExplanation).length
      = ([.obj [("question", .str "W2"), ("options", .arr [.str "u", .str "v", .str "w"]),
          ("correct_answer", .int 2)]] : List JsonVal).length ∧
    ∀ q ∈ ([.obj [("question", .str "W2"), ("options", .arr [.str "u", .str "v", .str "w"]),
          ("correct_answer", .int 2)]] : List JsonVal), getKey q "explanation" = none →
      getKey (ensureExplanation q) "explanation" = some (.str "Explanation not provided.") :=
  parseAndValidate_all_valid _ _ rfl (by simp)
    (by intro q hq; rcases List.mem_singleton.mp hq with rfl; rfl)

/-- C2 counterexample: `[]` is a well-formed JSON array all of whose (zero)
elements are valid question objects, yet the code signals
`NoValidQuestions` rather than returning with no error. -/
theorem parseAndValidate_empty_array_error :
    jsonLoads (stripFence ("[]".data)) = some (.arr []) ∧
    (∀ q ∈ ([] : List JsonVal), questionValid q = true) ∧
    parseAndValidate ("[]".data) = ([], some .noValidQuestions) :=
  ⟨rfl, by simp, rfl⟩

/-- C3 (amended): for input whose cleaned-up text is not parseable as JSON
at all, the result is an empty list and `MalformedResponse` carrying the
first at-most-500 characters of the cleaned-up text.  (Text that parses as
JSON but not as an array does not take this path; see the
counterexample.) -/
theorem parseAndValidate_unparseable (raw : List Char)
    (hj : jsonLoads (stripFence raw) = none) :
    parseAndValidate raw = ([], some (.malformedResponse ((stripFence raw).take 500))) ∧
    ((stripFence raw).take 500).length ≤ 500 := by
  constructor
  · show processContent (stripFence raw) = _
    unfold processContent
    simp only [hj]
  · rw [List.length_take]
    exact min_le_left _ _

/-- Witness for C3 at a non-JSON input. -/
theorem parseAndValidate_unparseable_witness :
    parseAndValidate ("hello".data)
      = ([], some (.malformedResponse ((stripFence ("hello".data)).take 500))) ∧
    ((stripFence ("hello".data)).take 500).length ≤ 500 :=
  parseAndValidate_unparseable _ rfl

/-- C3 counterexample: `{}` is not parseable as a JSON array (it parses as
an object), yet the code reports `NoValidQuestions`, not
`MalformedResponse`: the structural parse accepts any JSON value, not only
arrays. -/
theorem parseAndValidate_object_not_malformed :
    jsonLoads (stripFence ("\x7b\x7d".data)) = some (.obj []) ∧
    parseAndValidate ("\x7b\x7d".data) = ([], some .noValidQuestions) :=
  ⟨rfl, rfl⟩

/-- C5 (amended): wrapping a payload in fenced-code markers — three
backticks with either no language tag or the `json` tag, a newline, the
payload, a newline and the closing three backticks — yields the same
result as running `parseAndValidate` on the bare payload, provided the
trimmed payload does not itself begin or end with a fence marker.  Other
language tags (e.g. ```python) are NOT stripped by the code: only the
exact prefixes "```json" and "```" are removed, so a tag like `python`
survives into the text handed to the JSON parser (see the
counterexample). -/
theorem parseAndValidate_fence_equiv (p : List Char)
    (h1 : fence3.isPrefixOf (strip p) = false)
    (h2 : fence3.isSuffixOf (strip p) = false) :
    parseAndValidate (fenceJson ++ (('\n' :: p) ++ ('\n' :: fence3))) = parseAndValidate p ∧
    parseAndValidate (fence3 ++ (('\n' :: p) ++ ('\n' :: fence3))) = parseAndValidate p := by
  have hp : stripFence p = strip p := stripFence_of_nofence p h1 h2
  constructor
  · show processContent (stripFence (fenceJson ++ (('\n' :: p) ++ ('\n' :: fence3))))
      = processContent (stripFence p)
    rw [stripFence_wrapJson, hp]
  · show processContent (stripFence (fence3 ++ (('\n' :: p) ++ ('\n' :: fence3))))
      = processContent (stripFence p)
    rw [stripFence_wrapNoTag, hp]

/-- Witness for C5 at the payload `[]`. -/
theorem parseAndValidate_fence_equiv_witness :
    parseAndValidate (fenceJson ++ (('\n' :: ("[]".data)) ++ ('\n' :: fence3)))
      = parseAndValidate ("[]".data) ∧
    parseAndValidate (fence3 ++ (('\n' :: ("[]".data)) ++ ('\n' :: fence3)))
      = parseAndValidate ("[]".data) :=
  parseAndValidate_fence_equiv ("[]".data) rfl rfl

/-- C5 counterexample: the payload `[]` wrapped with the `python` language
tag gives `MalformedResponse` (the leftover tag text `python` is fed to
the JSON parser), while the bare payload gives `NoValidQuestions` — the
two results differ, refuting the claim for arbitrary language tags. -/
theorem parseAndValidate_python_tag_differs :
    parseAndValidate ("```python\n[]\n```".data)
      = ([], some (.malformedResponse ("python\n[]".data))) ∧
    parseAndValidate ("[]".data) = ([], some .noValidQuestions) :=
  ⟨rfl, rfl⟩

/-- C6 (amended): an element whose `correct_answer` fails Python's
`isinstance(x, int)` check (neither an integer nor a boolean), or whose
integer value is negative or at least the option count, is excluded from
the validated output wherever it occurs.  Python's `bool` is a subclass of
`int`, so a boolean `correct_answer` with in-range value (`true` = 1,
`false` = 0) is NOT excluded (see the counterexample). -/
theorem invalid_correct_answer_excluded (kvs : List (String × JsonVal))
    (ca : JsonVal) (opts : List JsonVal)
    (hca : lookupKey kvs "correct_answer" = some ca)
    (hopts : lookupKey kvs "options" = some (.arr opts))
    (hbad : asInt ca = none ∨ ∃ n, asInt ca = some n ∧ (n < 0 ∨ (opts.length : Int) ≤ n)) :
    questionValid (.obj kvs) = false ∧
    ∀ xs ys, validateQuestions (xs ++ .obj kvs :: ys) = validateQuestions (xs ++ ys) := by
  have hfalse : questionValid (.obj kvs) = false := by
    rw [Bool.eq_false_iff]
    intro hv
    rcases questionValid_elim kvs hv with ⟨_, opts', ho', _, ca', n, hc', hn', h0, h1⟩
    rw [hopts] at ho'
    rw [hca] at hc'
    cases ho'
    cases hc'
    rcases hbad with hnone | ⟨m, hm, hout⟩
    · rw [hn'] at hnone
      cases hnone
    · rw [hn'] at hm
      cases hm
      rcases hout with hneg | hge
      · exact absurd h0 (not_le.mpr hneg)
      · exact absurd h1 (not_lt.mpr hge)
  refine ⟨hfalse, ?_⟩
  intro xs ys
  rw [validateQuestions_eq, validateQuestions_eq, List.filter_append, List.filter_append,
    List.filter_cons, hfalse]
  simp

/-- Witness for C6 at a string-valued `correct_answer`. -/
theorem invalid_correct_answer_excluded_witness :
    questionValid (.obj [("question", .str "q"), ("options", .arr [.str "a", .str "b"]),
      ("correct_answer", .str "zero")]) = false ∧
    ∀ xs ys, validateQuestions (xs ++ .obj [("question", .str "q"),
        ("options", .arr [.str "a", .str "b"]), ("correct_answer", .str "zero")] :: ys)
      = validateQuestions (xs ++ ys) :=
  invalid_correct_answer_excluded _ _ _ rfl rfl (Or.inl rfl)

/-- C6 counterexample: the JSON boolean `true` is not an integer, yet an
element with `correct_answer` `true` and two options is retained — Python's
`isinstance(True, int)` holds and `0 <= True < 2` — refuting the claim that
every non-integer `correct_answer` is excluded. -/
theorem boolean_correct_answer_retained :
    parseAndValidate ("[\x7b\"question\": \"Q\", \"options\": [\"A\", \"B\"], \"correct_answer\": true\x7d]".data)
      = ([.obj [("question", .str "Q"), ("options", .arr [.str "A", .str "B"]),
          ("correct_answer", .bool true), ("explanation", .str "Explanation not provided.")]], none) ∧
    getKey (.obj [("question", .str "Q"), ("options", .arr [.str "A", .str "B"]),
        ("correct_answer", .bool true), ("explanation", .str "Explanation not provided.")])
      "correct_answer" = some (.bool true) :=
  ⟨rfl, rfl⟩

/-- C10 (confirmed): an accepted element is placed in the output with all
of its existing keys and values unchanged — including any keys beyond the
four specified — and the only possible modification is appending the
`explanation` key when it was absent. -/
theorem accepted_element_preserved (qs : List JsonVal) (q : JsonVal)
    (hq : q ∈ qs) (hv : questionValid q = true) :
    ensureExplanation q ∈ validateQuestions qs ∧
    (∀ k, ("explanation" == k) = false →
      getKey (ensureExplanation q) k = getKey q k) ∧
    ((getKey q "explanation").isSome = true → ensureExplanation q = q) ∧
    (getKey q "explanation" = none → ∃ kvs, q = .obj kvs ∧
      ensureExplanation q
        = .obj (kvs ++ [("explanation", .str "Explanation not provided.")])) := by
  rcases questionValid_obj q hv with ⟨kvs, rfl⟩
  refine ⟨mem_validateQuestions_of_valid qs _ hq hv, ?_, ?_, ?_⟩
  · intro k hk
    exact getKey_ensureExplanation_other kvs k hk
  · intro hex
    exact ensureExplanation_of_present kvs hex
  · intro hex
    exact ⟨kvs, rfl, ensureExplanation_of_absent kvs hex⟩

/-- Witness for C10 at an element carrying an extra `difficulty` key. -/
theorem accepted_element_preserved_witness :
    ensureExplanation (.obj [("question", .str "W3"), ("options", .arr [.str "a", .str "b"]),
        ("correct_answer", .int 0), ("difficulty", .str "easy")])
      ∈ validateQuestions [.obj [("question", .str "W3"), ("options", .arr [.str "a", .str "b"]),
        ("correct_answer", .int 0), ("difficulty", .str "easy")]] ∧
    (∀ k, ("explanation" == k) = false →
      getKey (ensureExplanation (.obj [("question", .str "W3"), ("options", .arr [.str "a", .str "b"]),
        ("correct_answer", .int 0), ("difficulty", .str "easy")])) k
      = getKey (.obj [("question", .str "W3"), ("options", .arr [.str "a", .str "b"]),
        ("correct_answer", .int 0), ("difficulty", .str "easy")]) k) ∧
    ((getKey (.obj [("question", .str "W3"), ("options", .arr [.str "a", .str "b"]),
        ("correct_answer", .int 0), ("difficulty", .str "easy")]) "explanation").isSome = true →
      ensureExplanation (.obj [("question", .str "W3"), ("options", .arr [.str "a", .str "b"]),
        ("correct_answer", .int 0), ("difficulty", .str "easy")])
      = .obj [("question", .str "W3"), ("options", .arr [.str "a", .str "b"]),
        ("correct_answer", .int 0), ("difficulty", .str "easy")]) ∧
    (getKey (.obj [("question", .str "W3"), ("options", .arr [.str "a", .str "b"]),
        ("correct_answer", .int 0), ("difficulty", .str "easy")]) "explanation" = none →
      ∃ kvs, (JsonVal.obj [("question", .str "W3"), ("options", .arr [.str "a", .str "b"]),
        ("correct_answer", .int 0), ("difficulty", .str "easy")]) = .obj kvs ∧
      ensureExplanation (.obj [("question", .str "W3"), ("options", .arr [.str "a", .str "b"]),
        ("correct_answer", .int 0), ("difficulty", .str "easy")])
        = .obj (kvs ++ [("explanation", .str "Explanation not provided.")])) :=
  accepted_element_preserved _ _ (List.mem_singleton.mpr rfl) rfl

/-- Each character produced for a `strftime` numeric field is a decimal
digit. -/
theorem digitChar_isDigit (n : Nat) : (digitChar n).isDigit = true := by
  have hm : n % 10 < 10 := Nat.mod_lt _ (by norm_num)
  unfold digitChar
  set m := n % 10 with hdef
  interval_cases m <;> decide

/-- C7 (confirmed): the JSON export object has `quiz_title` equal to the
given title, `created_date` equal to the `%Y-%m-%d %H:%M:%S` rendering of
the creation time — which, for the field ranges a Python `datetime`
guarantees, has the `YYYY-MM-DD HH:MM:SS` shape — `total_questions` equal
to the number of records, and `questions` holding the record list
verbatim. -/
theorem save_quiz_to_file_fields (questions : List JsonVal) (quiz_title : String)
    (t : PyDateTime) (_hy : t.year ≤ 9999) (_hmo : t.month ≤ 12) (_hd : t.day ≤ 31)
    (_hh : t.hour ≤ 23) (_hmi : t.minute ≤ 59) (_hs : t.second ≤ 59) :
    getKey (save_quiz_to_file questions quiz_title t) "quiz_title"
      = some (.str quiz_title) ∧
    getKey (save_quiz_to_file questions quiz_title t) "created_date"
      = some (.str (String.mk (strftimeYmdHMS t))) ∧
    isDateTimeFormat (strftimeYmdHMS t) = true ∧
    getKey (save_quiz_to_file questions quiz_title t) "total_questions"
      = some (.int (questions.length : Int)) ∧
    getKey (save_quiz_to_file questions quiz_title t) "questions"
      = some (.arr questions) := by
  refine ⟨rfl, rfl, ?_, rfl, rfl⟩
  show isDateTimeFormat (digitChar (t.year / 1000) :: digitChar (t.year / 100) ::
    digitChar (t.year / 10) :: digitChar t.year :: '-' :: digitChar (t.month / 10) ::
    digitChar t.month :: '-' :: digitChar (t.day / 10) :: digitChar t.day :: ' ' ::
    digitChar (t.hour / 10) :: digitChar t.hour :: ':' :: digitChar (t.minute / 10) ::
    digitChar t.minute :: ':' :: digitChar (t.second / 10) :: [digitChar t.second]) = true
  simp [isDateTimeFormat, digitChar_isDigit]

/-- Witness for C7 at a concrete date and an empty record list. -/
theorem save_quiz_to_file_fields_witness :
    getKey (save_quiz_to_file [] "My Quiz" ⟨2024, 5, 7, 9, 30, 0⟩) "quiz_title"
      = some (.str "My Quiz") ∧
    getKey (save_quiz_to_file [] "My Quiz" ⟨2024, 5, 7, 9, 30, 0⟩) "created_date"
      = some (.str (String.mk (strftimeYmdHMS ⟨2024, 5, 7, 9, 30, 0⟩))) ∧
    isDateTimeFormat (strftimeYmdHMS ⟨2024, 5, 7, 9, 30, 0⟩) = true ∧
    getKey (save_quiz_to_file [] "My Quiz" ⟨2024, 5, 7, 9, 30, 0⟩) "total_questions"
      = some (.int (([] : List JsonVal).length : Int)) ∧
    getKey (save_quiz_to_file [] "My Quiz" ⟨2024, 5, 7, 9, 30, 0⟩) "questions"
      = some (.arr []) :=
  save_quiz_to_file_fields [] "My Quiz" ⟨2024, 5, 7, 9, 30, 0⟩
    (by norm_num) (by norm_num) (by norm_num) (by norm_num) (by norm_num) (by norm_num)

/-- In every reachable session state, being at the `generated` or `saved`
step implies the question list is nonempty: the only way to leave `input`
is a successful generation, and no later transition empties the list
without returning to `input`. -/
theorem wizard_nonempty_invariant (s : AppState) (hs : Reachable s) :
    (s.currentStep = .generated ∨ s.currentStep = .saved) → s.questions ≠ [] := by
  induction hs with
  | init =>
    intro h
    rcases h with h | h <;> exact absurd h (by simp [initState])
  | step e hprev ih =>
    rename_i s'
    intro h
    cases e with
    | startNewQuiz =>
      rcases h with h | h <;> exact absurd h (by simp [stepFn])
    | clickGenerate topic key resp =>
      cases hcs : s'.currentStep with
      | input =>
        simp only [stepFn, hcs] at h ⊢
        unfold clickGenerateFn at h ⊢
        by_cases ht : topic.isEmpty
        · rw [if_pos ht] at h
          rw [hcs] at h
          rcases h with h | h <;> exact absurd h (by simp)
        · rw [if_neg ht] at h ⊢
          by_cases hk : key.isEmpty
          · rw [if_pos hk] at h
            rw [hcs] at h
            rcases h with h | h <;> exact absurd h (by simp)
          · rw [if_neg hk] at h ⊢
            cases hqs : generateResult resp with
            | nil =>
              simp only [hqs] at h
              rw [hcs] at h
              rcases h with h | h <;> exact absurd h (by simp)
            | cons q rest =>
              simp only [hqs]
              simp
      | generated =>
        simp only [stepFn, hcs] at h ⊢
        exact ih (by rw [hcs]; exact Or.inl rfl)
      | saved =>
        simp only [stepFn, hcs] at h ⊢
        exact ih (by rw [hcs]; exact Or.inr rfl)
    | generateNewQuiz =>
      cases hcs : s'.currentStep with
      | generated =>
        simp only [stepFn, hcs] at h
        rcases h with h | h <;> exact absurd h (by simp)
      | input =>
        simp only [stepFn, hcs] at h ⊢
        rcases h with h | h <;> exact absurd h (by simp)
      | saved =>
        simp only [stepFn, hcs] at h ⊢
        exact ih (by rw [hcs]; exact Or.inr rfl)
    | saveQuiz =>
      cases hcs : s'.currentStep with
      | generated =>
        simp only [stepFn, hcs] at h ⊢
        exact ih (by rw [hcs]; exact Or.inl rfl)
      | input =>
        simp only [stepFn, hcs] at h ⊢
        rcases h with h | h <;> exact absurd h (by simp)
      | saved =>
        simp only [stepFn, hcs] at h ⊢
        exact ih (by rw [hcs]; exact Or.inr rfl)
    | createAnotherQuiz =>
      cases hcs : s'.currentStep with
      | saved =>
        simp only [stepFn, hcs] at h
        rcases h with h | h <;> exact absurd h (by simp)
      | input =>
        simp only [stepFn, hcs] at h ⊢
        rcases h with h | h <;> exact absurd h (by simp)
      | generated =>
        simp only [stepFn, hcs] at h ⊢
        exact ih (by rw [hcs]; exact Or.inl rfl)
    | backToQuiz =>
      cases hcs : s'.currentStep with
      | saved =>
        simp only [stepFn, hcs] at h ⊢
        exact ih (by rw [hcs]; exact Or.inr rfl)
      | input =>
        simp only [stepFn, hcs] at h ⊢
        rcases h with h | h <;> exact absurd h (by simp)
      | generated =>
        simp only [stepFn, hcs] at h ⊢
        exact ih (by rw [hcs]; exact Or.inl rfl)
    | generateMoreQuestions =>
      cases hcs : s'.currentStep with
      | saved =>
        simp only [stepFn, hcs] at h
        rcases h with h | h <;> exact absurd h (by simp)
      | input =>
        simp only [stepFn, hcs] at h ⊢
        rcases h with h | h <;> exact absurd h (by simp)
      | generated =>
        simp only [stepFn, hcs] at h ⊢
        exact ih (by rw [hcs]; exact Or.inl rfl)

/-- C8 (confirmed): the wizard moves from `input` to `generated` only via
the generate button with a nonempty topic, an available API key, and a
successful API call whose validated output is nonempty — and the new
question list is exactly that output; consequently every reachable
`generated` state has a nonempty record list. -/
theorem wizard_input_to_generated :
    (∀ (s : AppState) (e : Event), s.currentStep = .input →
      (stepFn s e).currentStep = .generated →
      ∃ topic apiKey raw, e = .clickGenerate topic apiKey (some raw) ∧
        topic ≠ [] ∧ apiKey ≠ [] ∧ (parseAndValidate raw).1 ≠ [] ∧
        (stepFn s e).questions = (parseAndValidate raw).1) ∧
    (∀ s : AppState, Reachable s → s.currentStep = .generated →
      s.questions ≠ []) := by
  constructor
  · intro s e hin hgen
    cases e with
    | startNewQuiz => exact absurd hgen (by simp [stepFn])
    | clickGenerate topic key resp =>
      simp only [stepFn, hin] at hgen ⊢
      unfold clickGenerateFn at hgen ⊢
      by_cases ht : topic.isEmpty
      · rw [if_pos ht] at hgen
        rw [hin] at hgen
        exact absurd hgen (by simp)
      · rw [if_neg ht] at hgen ⊢
        by_cases hk : key.isEmpty
        · rw [if_pos hk] at hgen
          rw [hin] at hgen
          exact absurd hgen (by simp)
        · rw [if_neg hk] at hgen ⊢
          cases hqs : generateResult resp with
          | nil =>
            simp only [hqs] at hgen
            rw [hin] at hgen
            exact absurd hgen (by simp)
          | cons q rest =>
            simp only [hqs]
            cases resp with
            | none => exact absurd hqs (by simp [generateResult])
            | some raw =>
              have hpr : (parseAndValidate raw).1 = q :: rest := hqs
              refine ⟨topic, key, raw, rfl, ?_, ?_, ?_, ?_⟩
              · intro hnil
                exact ht (by rw [hnil]; rfl)
              · intro hnil
                exact hk (by rw [hnil]; rfl)
              · rw [hpr]
                simp
              · rw [hpr]
    | generateNewQuiz =>
      simp only [stepFn, hin] at hgen
      exact absurd hgen (by simp)
    | saveQuiz =>
      simp only [stepFn, hin] at hgen
      exact absurd hgen (by simp)
    | createAnotherQuiz =>
      simp only [stepFn, hin] at hgen
      exact absurd hgen (by simp)
    | backToQuiz =>
      simp only [stepFn, hin] at hgen
      exact absurd hgen (by simp)
    | generateMoreQuestions =>
      simp only [stepFn, hin] at hgen
      exact absurd hgen (by simp)
  · intro s hr hgen
    exact wizard_nonempty_invariant s hr (Or.inl hgen)

/-- Witness for C8: a concrete successful generation from the initial
state reaches `generated`. -/
theorem wizard_input_to_generated_witness :
    ∃ topic apiKey raw,
      (Event.clickGenerate ("math".data) ("key1".data)
        (some ("[\x7b\"question\": \"W8\", \"options\": [\"yes\", \"no\"], \"correct_answer\": 0\x7d]".data)))
        = .clickGenerate topic apiKey (some raw) ∧
      topic ≠ [] ∧ apiKey ≠ [] ∧ (parseAndValidate raw).1 ≠ [] ∧
      (stepFn initState (Event.clickGenerate ("math".data) ("key1".data)
        (some ("[\x7b\"question\": \"W8\", \"options\": [\"yes\", \"no\"], \"correct_answer\": 0\x7d]".data)))).questions
        = (parseAndValidate raw).1 :=
  wizard_input_to_generated.1 initState _ rfl rfl
